import Mathlib

/-!
Verification of the mini-http request-dispatch layer.

The definitions below are a shallow embedding of the repository's
TypeScript sources:

* `src/server.ts` — request normalization (`parsePath`, `parseMethod`,
  `parseBody`, `parseRequest`), route matching (`matchPath`, `matchMethod`,
  `matchRoute`), the dispatcher with its catch boundary, error translation
  (`formatErrorResponse`, `parseErrorResponse`), the compiled-schema cache
  (`createCompilerCache`) and the response serializer.
* `src/typed-server.ts` — the typed-route evaluator (`routeEvaluator`) and
  its compiler cache.
* `src/errors.ts` — `HttpError` and its `NotFoundError` / `BadInputError` /
  `AuthError` subclasses.
* `src/http.ts` — the `HttpMethods` enumeration and the request/response
  record shapes.
* `src/client.ts` — `readBody`.

External platform collaborators (Node streams, `JSON.parse`,
`JSON.stringify`, `Buffer.byteLength`, the typebox `TypeCompiler`, JS object
identity and JS object spread) have no source in the repository; they are
modelled explicitly, with each model documented where it is defined.
-/

/-- JSON values, the model of ECMAScript values produced by `JSON.parse` and
consumed by `JSON.stringify`.  Numbers are modelled as integers (the only
numbers the repository's tests and schemas exercise); object fields are an
ordered association list, looked up with last-writer-wins semantics as in a
JS object literal. -/
inductive Json where
  | null
  | bool (b : Bool)
  | num (n : Int)
  | str (s : String)
  | arr (elems : List Json)
  | obj (fields : List (String × Json))

/-- Association-list lookup with last-writer-wins semantics: the model of
reading a property from a JS object built by literals and spreads (a later
write for the same key overwrites an earlier one). -/
def alistLast {κ α : Type} [DecidableEq κ] : List (κ × α) → κ → Option α
  | [], _ => none
  | (k, v) :: rest, key =>
    match alistLast rest key with
    | some r => some r
    | none => if k = key then some v else none

/-- Escapes one string for JSON output; part of the `JSON.stringify` model. -/
def escapeJsonChars : List Char → String
  | [] => ""
  | c :: rest =>
    (if c = '"' then "\\\""
     else if c = '\\' then "\\\\"
     else if c = '\n' then "\\n"
     else if c = '\t' then "\\t"
     else if c = '\r' then "\\r"
     else String.mk [c]) ++ escapeJsonChars rest

mutual
/-- Model of the ECMAScript `JSON.stringify` builtin on the values of
`Json` (external to the repository). -/
def jsonStringify : Json → String
  | .null => "null"
  | .bool b => if b then "true" else "false"
  | .num n => toString n
  | .str s => "\"" ++ escapeJsonChars s.data ++ "\""
  | .arr elems => "[" ++ stringifyElems elems ++ "]"
  | .obj fields => "\x7b" ++ stringifyFields fields ++ "\x7d"

def stringifyElems : List Json → String
  | [] => ""
  | x :: rest =>
    jsonStringify x ++ (match rest with | [] => "" | _ :: _ => ",") ++ stringifyElems rest

def stringifyFields : List (String × Json) → String
  | [] => ""
  | (key, v) :: rest =>
    "\"" ++ escapeJsonChars key.data ++ "\":" ++ jsonStringify v ++
      (match rest with | [] => "" | _ :: _ => ",") ++ stringifyFields rest
end

def isJsonWs (c : Char) : Bool :=
  c == ' ' || c == '\n' || c == '\t' || c == '\r'

def skipWs : List Char → List Char
  | [] => []
  | c :: rest => if isJsonWs c then skipWs rest else c :: rest

/-- Reads the remainder of a JSON string literal (the opening quote already
consumed); part of the `JSON.parse` model. -/
def parseStringBody : List Char → Except String (String × List Char)
  | [] => .error "Unterminated string in JSON"
  | c :: rest =>
    if c = '"' then .ok ("", rest)
    else if c = '\\' then
      match rest with
      | [] => .error "Unterminated escape in JSON"
      | e :: rest2 =>
        match parseStringBody rest2 with
        | .error msg => .error msg
        | .ok (s, rest3) =>
          let ch := if e = 'n' then '\n' else if e = 't' then '\t' else if e = 'r' then '\r' else e
          .ok (String.mk [ch] ++ s, rest3)
    else
      match parseStringBody rest with
      | .error msg => .error msg
      | .ok (s, rest2) => .ok (String.mk [c] ++ s, rest2)

def parseDigits : List Char → List Char × List Char
  | [] => ([], [])
  | c :: rest =>
    if c.isDigit then
      let (ds, r) := parseDigits rest
      (c :: ds, r)
    else ([], c :: rest)

def digitsToNat (ds : List Char) : Nat :=
  ds.foldl (fun n c => n * 10 + (c.toNat - 48)) 0

def parseJsonNumber (neg : Bool) (input : List Char) : Except String (Json × List Char) :=
  let (ds, rest) := parseDigits input
  if ds.isEmpty then .error "Invalid number in JSON"
  else .ok (.num (if neg then -(Int.ofNat (digitsToNat ds)) else Int.ofNat (digitsToNat ds)), rest)

def lbraceChar : Char := Char.ofNat 123

def rbraceChar : Char := Char.ofNat 125

mutual
/-- Model of the ECMAScript `JSON.parse` builtin (external to the
repository): a recursive-descent reader over the character list, fuelled for
termination.  It covers the JSON fragment the repository exercises (numbers
are integers, string escapes are the common ones); what matters for the
claims is which strings parse at all — a failing parse is a thrown
`SyntaxError`, i.e. a generic `Error`, not an `HttpError`. -/
def parseJsonValue : Nat → List Char → Except String (Json × List Char)
  | 0, _ => .error "JSON input too deeply nested"
  | fuel + 1, input =>
    match skipWs input with
    | [] => .error "Unexpected end of JSON input"
    | c :: rest =>
      if c = 'n' then
        match rest with
        | 'u' :: 'l' :: 'l' :: r => .ok (.null, r)
        | _ => .error "Unexpected token in JSON"
      else if c = 't' then
        match rest with
        | 'r' :: 'u' :: 'e' :: r => .ok (.bool true, r)
        | _ => .error "Unexpected token in JSON"
      else if c = 'f' then
        match rest with
        | 'a' :: 'l' :: 's' :: 'e' :: r => .ok (.bool false, r)
        | _ => .error "Unexpected token in JSON"
      else if c = '"' then
        match parseStringBody rest with
        | .error msg => .error msg
        | .ok (s, r) => .ok (.str s, r)
      else if c = '[' then
        match skipWs rest with
        | ']' :: r => .ok (.arr [], r)
        | _ => match parseArrayItems fuel rest with
          | .error msg => .error msg
          | .ok (elems, r) => .ok (.arr elems, r)
      else if c = lbraceChar then
        match skipWs rest with
        | c2 :: r => if c2 = rbraceChar then .ok (.obj [], r)
          else match parseObjectFields fuel rest with
            | .error msg => .error msg
            | .ok (fields, r2) => .ok (.obj fields, r2)
        | [] => .error "Unexpected end of JSON input"
      else if c = '-' then parseJsonNumber true rest
      else if c.isDigit then parseJsonNumber false (c :: rest)
      else .error "Unexpected token in JSON"

def parseArrayItems : Nat → List Char → Except String (List Json × List Char)
  | 0, _ => .error "JSON input too deeply nested"
  | fuel + 1, input =>
    match parseJsonValue fuel input with
    | .error msg => .error msg
    | .ok (v, rest) =>
      match skipWs rest with
      | ',' :: rest2 =>
        match parseArrayItems fuel rest2 with
        | .error msg => .error msg
        | .ok (vs, rest3) => .ok (v :: vs, rest3)
      | ']' :: rest2 => .ok ([v], rest2)
      | _ => .error "Expected comma or closing bracket in JSON array"

def parseObjectFields : Nat → List Char → Except String (List (String × Json) × List Char)
  | 0, _ => .error "JSON input too deeply nested"
  | fuel + 1, input =>
    match skipWs input with
    | '"' :: rest =>
      (match parseStringBody rest with
       | .error msg => .error msg
       | .ok (key, rest1) =>
         match skipWs rest1 with
         | ':' :: rest2 =>
           (match parseJsonValue fuel rest2 with
            | .error msg => .error msg
            | .ok (v, rest3) =>
              match skipWs rest3 with
              | ',' :: rest4 =>
                (match parseObjectFields fuel rest4 with
                 | .error msg => .error msg
                 | .ok (fields, rest5) => .ok ((key, v) :: fields, rest5))
              | c :: rest4 =>
                if c = rbraceChar then .ok ([(key, v)], rest4)
                else .error "Expected comma or closing brace in JSON object"
              | [] => .error "Unexpected end of JSON input")
         | _ => .error "Expected colon in JSON object")
    | _ => .error "Expected string key in JSON object"
end

/-- Model of `JSON.parse`: parse one value and require only whitespace to
remain.  An `.error` result models the thrown `SyntaxError`. -/
def jsonParse (s : String) : Except String Json :=
  match parseJsonValue (s.length + 4) s.data with
  | .error msg => .error msg
  | .ok (j, rest) =>
    if (skipWs rest).isEmpty then .ok j
    else .error "Unexpected non-whitespace character after JSON"

/-! ### Schema validator and compiler cache

`src/server.ts` and `src/typed-server.ts` both define `createCompilerCache`,
a `Map<TSchema, TypeCheck<T>>` keyed by the schema *object* (JS `Map` keys
objects by reference identity).  Object identity is modelled by an explicit
`id : Nat` tag on schemas and on compiled validator instances; the typebox
`TypeCompiler` (external to the repository) is modelled as producing a
validator that checks a value against the schema's structure. -/

/-- The structural content of a typebox schema, for the fragment the
repository uses (`Type.Object` of `Type.String` / `Type.Number` properties,
all required, additional properties allowed). -/
inductive SchemaShape where
  | string
  | number
  | object (props : List (String × SchemaShape))

/-- A schema object: its JS reference identity (`id`) plus its structure.
Two structurally identical but separately constructed schema objects have
equal `shape` and different `id`. -/
structure Schema where
  id : Nat
  shape : SchemaShape

/-- A compiled `TypeCheck` validator instance: its own reference identity
(`instanceId`, fresh per compilation) plus the structure it checks. -/
structure Validator where
  instanceId : Nat
  shape : SchemaShape

mutual
/-- Model of the typebox check: a string schema accepts JSON strings, a
number schema accepts JSON numbers, an object schema requires every listed
property to be present and valid (extra properties are allowed). -/
def checkShape : SchemaShape → Json → Bool
  | .string, j => match j with | .str _ => true | _ => false
  | .number, j => match j with | .num _ => true | _ => false
  | .object props, j =>
    match j with
    | .obj fields => checkProps props fields
    | _ => false

def checkProps : List (String × SchemaShape) → List (String × Json) → Bool
  | [], _ => true
  | (key, shape) :: rest, fields =>
    (match alistLast fields key with
     | some v => checkShape shape v
     | none => false) && checkProps rest fields
end

/-- `validator.Check(data)` of the compiled typebox validator. -/
def Validator.check (v : Validator) (data : Json) : Bool :=
  checkShape v.shape data

/-- The state of the cache closed over by `createCompilerCache` (both in
`src/server.ts` lines 135–148 and `src/typed-server.ts` lines 71–84): the
`Map` entries, keyed by schema object identity, plus a counter supplying
fresh identities for newly compiled validator instances. -/
structure CompilerCache where
  entries : List (Nat × Validator)
  nextInstanceId : Nat

/-- The cache a fresh `createCompilerCache()` call returns. -/
def emptyCache : CompilerCache := { entries := [], nextInstanceId := 0 }

/-- `compile(schema)` from `createCompilerCache`: return the cached validator
for this schema object if present, otherwise compile
(`TypeCompiler.Compile(schema)`, producing a fresh instance), cache it under
the schema's identity, and return it. -/
def compile (cache : CompilerCache) (schema : Schema) : Validator × CompilerCache :=
  match alistLast cache.entries schema.id with
  | some validator => (validator, cache)
  | none =>
    let validator : Validator := { instanceId := cache.nextInstanceId, shape := schema.shape }
    (validator,
     { entries := cache.entries ++ [(schema.id, validator)],
       nextInstanceId := cache.nextInstanceId + 1 })

/-! ### HTTP data model (`src/http.ts`) -/

/-- `HttpMethods` from `src/http.ts`. -/
def HttpMethods : List String := ["GET", "POST", "PUT", "PATCH", "DELETE"]

/-- A header value: `string | string[]` from the `HttpHeaders` record type. -/
inductive HeaderValue where
  | str (s : String)
  | arr (values : List String)
deriving DecidableEq

/-- `HttpHeaders`: a JS record, modelled as an association list read with
`alistLast` (later writes win, as with JS object spread). -/
abbrev Headers := List (String × HeaderValue)

/-- Thrown JS values, classified the way `parseErrorResponse` classifies
them with `instanceof`: an `HttpError` (from `src/errors.ts`, carrying a
status code, a message and an optional body), any other `Error` (carrying a
message — this includes the `SyntaxError` thrown by `JSON.parse`), or a
thrown value that is not an `Error` at all. -/
inductive Thrown where
  | httpError (statusCode : Nat) (message : String) (body : Option Json)
  | error (message : String)
  | other (value : Json)

/-- `new NotFoundError(message)` from `src/errors.ts`. -/
def notFoundError (message : String) : Thrown := .httpError 404 message none

/-- `new BadInputError(message)` from `src/errors.ts`. -/
def badInputError (message : String) : Thrown := .httpError 400 message none

/-- `new AuthError(message)` from `src/errors.ts`. -/
def authError (message : String) : Thrown := .httpError 401 message none

/-- `HttpRequest` from `src/http.ts`: `body` is optional (absent models
`undefined`). -/
structure HttpRequest where
  path : String
  headers : Headers
  method : String
  body : Option String

/-- A response body: `string | Record<string, unknown>` (the
`HttpStringResponse` / `HttpJsonResponse` union from `src/http.ts`). -/
inductive ResponseBody where
  | str (s : String)
  | obj (j : Json)

/-- `HttpResponse` from `src/http.ts` (the `statusCode` variant used by
`src/server.ts`). -/
structure HttpResponse where
  statusCode : Nat
  headers : Option Headers
  body : Option ResponseBody

/-! ### Request normalization (`src/server.ts` lines 16–46, `src/client.ts`) -/

/-- The raw inbound message the Node listener hands over: its optional
target url, optional method token, raw headers, and the body stream.  The
stream is modelled as the list of chunks the `for await` loop observes;
Node's non-object-mode streams never yield a zero-byte chunk. -/
structure IncomingMessage where
  url : Option String
  method : Option String
  headers : Headers
  chunks : List String

/-- `parsePath` from `src/server.ts`: the raw url, defaulting to "/". -/
def parsePath (msg : IncomingMessage) : String :=
  msg.url.getD "/"

/-- Model of the JS `String.prototype.toUpperCase` (ASCII, which is all the
method tokens contain). -/
def toUpperCase (s : String) : String :=
  String.mk (s.data.map Char.toUpper)

/-- `parseMethod` from `src/server.ts` lines 20–26: if the token is truthy
(present and non-empty) and its upper-casing is found in `HttpMethods`,
return the upper-cased token; otherwise throw a plain
`Error("Invalid method: ...")`. -/
def parseMethod (method : Option String) : Except Thrown String :=
  match method with
  | none => .error (Thrown.error "Invalid method: undefined")
  | some m =>
    if m ≠ "" ∧ (HttpMethods.find? (fun item => item == toUpperCase m)).isSome then
      .ok (toUpperCase m)
    else .error (Thrown.error ("Invalid method: " ++ m))

/-- `parseBody` from `src/server.ts` lines 28–37: fold over the stream's
chunks, starting from `undefined` and switching to `""` on the first chunk
before appending each chunk. -/
def parseBody (chunks : List String) : Option String :=
  chunks.foldl (fun data chunk => some (data.getD "" ++ chunk)) none

/-- `readBody` from `src/client.ts` lines 11–20 — the same fold as
`parseBody`. -/
def readBody (chunks : List String) : Option String :=
  chunks.foldl (fun body chunk => some (body.getD "" ++ chunk)) none

/-- The concatenation of all chunks of a stream, for specifying `parseBody`. -/
def concatChunks : List String → String
  | [] => ""
  | c :: rest => c ++ concatChunks rest

/-- `parseRequest` from `src/server.ts` lines 39–46.  `parseMethod` may
throw, and that throw propagates out of `parseRequest` (the `.error` case). -/
def parseRequest (msg : IncomingMessage) : Except Thrown HttpRequest :=
  match parseMethod msg.method with
  | .error t => .error t
  | .ok method =>
    .ok { path := parsePath msg, headers := msg.headers, method := method,
          body := parseBody msg.chunks }

/-! ### Routes and route matching (`src/server.ts` lines 48–121) -/

/-- `Matcher = string | RegExp`.  A compiled `RegExp` is modelled by its
`test` function on the path. -/
inductive Matcher where
  | str (s : String)
  | regex (test : String → Bool)

/-- `ValidatedHttpRequest` from `src/http.ts`: the request with its body
replaced by the decoded JSON value. -/
structure ValidatedHttpRequest where
  path : String
  headers : Headers
  method : String
  body : Json

/-- The two route shapes, `DefaultRoute` and `RouteWithValidations`,
distinguished exactly as `isRouteWithValidations` distinguishes them (the
presence of a defined body validator).  The source also passes the route
itself to its handler as a second argument; the handler's result does not
feed back into matching or dispatch, so that self-reference is dropped
here.  A handler's thrown failure is its `.error` result. -/
inductive RouteKind where
  | plain (handler : HttpRequest → Except Thrown HttpResponse)
  | typed (schemaBody : Schema)
      (handler : ValidatedHttpRequest → Except Thrown HttpResponse)

/-- A registered route: matcher, method, and its kind. -/
structure Route where
  matcher : Matcher
  method : String
  kind : RouteKind

/-- `matchPath` from `src/server.ts` lines 95–105: a `RegExp` matcher tests
the path, a string matcher must equal the path. -/
def matchPath (request : HttpRequest) (route : Route) : Bool :=
  match route.matcher with
  | .regex test => test request.path
  | .str s => s == request.path

/-- `matchMethod` from `src/server.ts` lines 107–113: strict string
equality between the request method and the route's method field. -/
def matchMethod (request : HttpRequest) (route : Route) : Bool :=
  request.method == route.method

/-- `matchRoute` from `src/server.ts` lines 115–121. -/
def matchRoute (request : HttpRequest) (route : Route) : Bool :=
  matchPath request route && matchMethod request route

/-! ### Error translation (`src/server.ts` lines 123–133 and 178–186) -/

/-- `formatErrorResponse` from `src/server.ts` lines 123–133 (the source
gives `statusCode` a default of 500; callers that rely on the default are
translated with an explicit 500). -/
def formatErrorResponse (message : String) (statusCode : Nat) : HttpResponse :=
  { statusCode := statusCode, headers := none,
    body := some (ResponseBody.obj (Json.obj [("error", Json.str message)])) }

/-- `parseErrorResponse` from `src/server.ts` lines 178–186: an `HttpError`
keeps its carried status code, any other `Error` maps to 500 with its
message, anything else maps to 500 with "internal server error". -/
def parseErrorResponse (err : Thrown) : HttpResponse :=
  match err with
  | .httpError statusCode message _ => formatErrorResponse message statusCode
  | .error message => formatErrorResponse message 500
  | .other _ => formatErrorResponse "internal server error" 500

/-! ### Typed-body validation and dispatch (`src/server.ts` lines 150–252) -/

/-- `isJsonValid` from `src/server.ts` lines 150–157: compile (through the
cache) and check. -/
def isJsonValid (data : Json) (schema : Schema) (compilerCache : CompilerCache) :
    Bool × CompilerCache :=
  let (validator, cache2) := compile compilerCache schema
  (validator.check data, cache2)

/-- `validateRequestBody` from `src/server.ts` lines 159–176: an absent
body throws a plain `Error("body is undefined")`; `JSON.parse` may throw its
own `SyntaxError`; a failed schema check throws a plain
`Error("body is invalid")`; otherwise the request is returned with the
decoded body. -/
def validateRequestBody (cache : CompilerCache) (request : HttpRequest)
    (bodyValidator : Schema) : Except Thrown ValidatedHttpRequest × CompilerCache :=
  match request.body with
  | none => (.error (Thrown.error "body is undefined"), cache)
  | some requestBody =>
    match jsonParse requestBody with
    | .error msg => (.error (Thrown.error msg), cache)
    | .ok body =>
      let (valid, cache2) := isJsonValid body bodyValidator cache
      if valid then
        (.ok { path := request.path, headers := request.headers,
               method := request.method, body := body }, cache2)
      else (.error (Thrown.error "body is invalid"), cache2)

/-- The `try`/`catch` block of the dispatcher (`src/server.ts` lines
212–228): run validation (for a typed route) and the handler, translating
any thrown failure with `parseErrorResponse` at this single point. -/
def attemptRoute (cache : CompilerCache) (request : HttpRequest) (route : Route) :
    HttpResponse × CompilerCache :=
  match route.kind with
  | .typed schemaBody handler =>
    (match validateRequestBody cache request schemaBody with
     | (.ok validatedRequest, cache2) =>
       ((match handler validatedRequest with
         | .ok response => response
         | .error err => parseErrorResponse err), cache2)
     | (.error err, cache2) => (parseErrorResponse err, cache2))
  | .plain handler =>
    ((match handler request with
      | .ok response => response
      | .error err => parseErrorResponse err), cache)

/-- The response the dispatcher initializes before looking at any route
(`src/server.ts` lines 198–204), and therefore the response sent when no
route matches. -/
def invalidRouteResponse : HttpResponse :=
  { statusCode := 500,
    headers := some [("content-type", HeaderValue.str "text/plain")],
    body := some (ResponseBody.str "invalid route") }

/-- The dispatcher's route walk (`src/server.ts` lines 210–232): scan the
routes in registration order, attempt the first match (with the catch
boundary inside `attemptRoute`), `break` afterwards; if nothing matches the
initial `invalid route` response stands.  The debug log call before the walk
does not affect the outcome and is not modelled. -/
def dispatch (cache : CompilerCache) (request : HttpRequest) :
    List Route → HttpResponse × CompilerCache
  | [] => (invalidRouteResponse, cache)
  | route :: rest =>
    if matchRoute request route then attemptRoute cache request route
    else dispatch cache request rest

/-! ### Response serialization (`src/server.ts` lines 234–250) -/

/-- UTF-8 size of one character; part of the `Buffer.byteLength` model. -/
def charUtf8Size (c : Char) : Nat :=
  if c.toNat < 128 then 1
  else if c.toNat < 2048 then 2
  else if c.toNat < 65536 then 3
  else 4

/-- Model of `Buffer.byteLength(s)` (external to the repository): the UTF-8
byte length of the string. -/
def byteLength (s : String) : Nat :=
  s.data.foldl (fun n c => n + charUtf8Size c) 0

/-- The serialized text of a response body: a string body is coerced by the
template literal (identity on strings), an object body is
`JSON.stringify`ed. -/
def renderBody : ResponseBody → String
  | .str s => s
  | .obj j => jsonStringify j

/-- The inferred content type: `text/plain` initially, switched to
`application/json` when `typeof response.body === "object"`. -/
def inferContentType : ResponseBody → String
  | .str _ => "text/plain"
  | .obj _ => "application/json"

/-- What the listener writes to the wire: the status code and headers passed
to `res.writeHead`, and the body bytes passed to `res.write` (absent when
the JS `body` variable is `undefined` or falsy — in particular nothing is
written for an absent body, and also for an empty-string body). -/
structure WireOutput where
  status : Nat
  headers : Option Headers
  written : Option String
deriving DecidableEq

/-- The serializer block of `src/server.ts` lines 234–250: when the body is
present (not `undefined`/`null`), render it, infer the content type, and
rebuild the headers as `{ "content-type": inferred, ...response.headers,
"content-length": byteLength(body) }` — the caller's headers are spread over
the inferred content type, and the content length is written last.  When the
body is absent, the response's own headers are passed through unchanged and
no body is written. -/
def serializeResponse (response : HttpResponse) : WireOutput :=
  match response.body with
  | none => { status := response.statusCode, headers := response.headers, written := none }
  | some b =>
    let body := renderBody b
    let headers : Headers :=
      ("content-type", HeaderValue.str (inferContentType b)) ::
        (response.headers.getD [] ++
          [("content-length", HeaderValue.str (toString (byteLength body)))])
    { status := response.statusCode, headers := some headers,
      written := if body = "" then none else some body }

/-- The whole per-connection callback of `createHttpServer` (`src/server.ts`
lines 195–252): normalize the request — note `parseRequest` sits *outside*
the dispatcher's `try`/`catch`, so its throw propagates and nothing is
written to the response — then dispatch and serialize. -/
def handleConnection (routes : List Route) (cache : CompilerCache)
    (msg : IncomingMessage) : Except Thrown (WireOutput × CompilerCache) :=
  match parseRequest msg with
  | .error t => .error t
  | .ok request =>
    let (response, cache2) := dispatch cache request routes
    .ok (serializeResponse response, cache2)

/-! ### The typed server (`src/typed-server.ts`)

`typed-server.ts` imports its server core from a `server.ts` revision that
is not among the repository's source files (only `typed-server.ts` itself
and the test files that call it are present).  The route evaluator below is
translated from `src/typed-server.ts` lines 116–137; the missing dispatch
loop's single catch boundary and its failure translation are modelled from
the spec where marked. -/

/-- `Response` of the typed-server variant (the `status` field variant). -/
structure ResponseT where
  status : Nat
  headers : Option Headers
  body : Option ResponseBody

/-- The typed variant's `Matcher`: string, pattern, or predicate. -/
inductive MatcherT where
  | str (s : String)
  | regex (test : String → Bool)
  | pred (f : HttpRequest → Bool)

/-- A plain `Route` of the typed-server variant. -/
structure RouteT where
  matcher : MatcherT
  handler : HttpRequest → Except Thrown ResponseT

/-- `TypedRequest<Body>` from `src/typed-server.ts` lines 22–25: the request
with a `typed: true` discriminant (carried here by the type itself) and the
decoded body. -/
structure TypedRequestT where
  path : String
  headers : Headers
  method : String
  body : Json

/-- `TypedRoute<Body>` from `src/typed-server.ts` lines 35–44.  As for
`Route`, the handler's route argument (`this`) is dropped. -/
structure TypedRouteT where
  matcher : MatcherT
  schemaBody : Schema
  handler : TypedRequestT → Except Thrown ResponseT

/-- `Routes<Body> = Route | TypedRoute<Body>`, distinguished exactly as
`isTypedRoute` distinguishes them (presence of `schema`). -/
inductive RoutesT where
  | plain (route : RouteT)
  | typed (route : TypedRouteT)

/-- `Requests<Body> = Request | TypedRequest<Body>`, distinguished exactly
as `isTypedRequest` distinguishes them (presence of `typed`). -/
inductive RequestsT where
  | plain (request : HttpRequest)
  | typed (request : TypedRequestT)

/-- `typeof request.body === "string"`, together with the string it
extracts: a plain request's body is a string exactly when it is present; a
typed request's body is a string exactly when the decoded JSON value is a
string. -/
def requestBodyString : RequestsT → Option String
  | .plain request => request.body
  | .typed request => match request.body with | .str s => some s | _ => none

/-- The `{...request, typed: true, body}` spread building the
`TypedRequest`. -/
def mkTypedRequest (request : RequestsT) (body : Json) : TypedRequestT :=
  match request with
  | .plain request =>
    { path := request.path, headers := request.headers, method := request.method,
      body := body }
  | .typed request => { request with body := body }

/-- The `routeEvaluator` installed by `createTypedHttpServer`
(`src/typed-server.ts` lines 116–137).  For a typed route whose request body
is a string: `JSON.parse` it (a parse failure is the parser's own thrown
`SyntaxError`, a generic `Error`), compile the schema through the cache,
throw `BadInputError("Invalid request body")` when the check fails, and
otherwise call the typed handler on the `TypedRequest`.  A typed route whose
request body is not a string throws
`BadInputError("expected body to be a string")`; a plain route runs its
handler on a plain request and throws `BadInputError("unexpected input")` on
a typed one. -/
def routeEvaluator (compiler : CompilerCache) (request : RequestsT) (route : RoutesT) :
    Except Thrown ResponseT × CompilerCache :=
  match route with
  | .typed route =>
    (match requestBodyString request with
     | some s =>
       (match jsonParse s with
        | .error msg => (.error (Thrown.error msg), compiler)
        | .ok body =>
          let (validator, compiler2) := compile compiler route.schemaBody
          if !validator.check body then
            (.error (badInputError "Invalid request body"), compiler2)
          else (route.handler (mkTypedRequest request body), compiler2))
     | none => (.error (badInputError "expected body to be a string"), compiler))
  | .plain route =>
    match request with
    | .plain request => (route.handler request, compiler)
    | .typed _ => (.error (badInputError "unexpected input"), compiler)

/-- Modelled from the spec: the typed-variant dispatcher's single failure
translation point (spec §7) — the `server.ts` revision that
`src/typed-server.ts` imports is not among the repository's sources.  Per
§7, a structured failure carrying a status code propagates as that status
with its message in a JSON error envelope, any other raised failure maps to
status 500 with its message, and a failure with no message available maps to
500 with a generic message. -/
def typedErrorResponse : Thrown → ResponseT
  | .httpError statusCode message _ =>
    { status := statusCode, headers := none,
      body := some (ResponseBody.obj (Json.obj [("error", Json.str message)])) }
  | .error message =>
    { status := 500, headers := none,
      body := some (ResponseBody.obj (Json.obj [("error", Json.str message)])) }
  | .other _ =>
    { status := 500, headers := none,
      body := some (ResponseBody.obj (Json.obj [("error", Json.str "internal server error")])) }

/-- Modelled from the spec: the typed-variant dispatcher's evaluation of the
first-matching route — run the `routeEvaluator` from `src/typed-server.ts`
and translate any failure it raises at the single catch boundary (spec
§4.3.2 and §7). -/
def evalTypedRoute (compiler : CompilerCache) (request : RequestsT) (route : RoutesT) :
    ResponseT × CompilerCache :=
  match routeEvaluator compiler request route with
  | (.ok response, compiler2) => (response, compiler2)
  | (.error t, compiler2) => (typedErrorResponse t, compiler2)

/-! ### Helper lemmas -/

theorem alistLast_append {κ α : Type} [DecidableEq κ] (xs ys : List (κ × α)) (key : κ) :
    alistLast (xs ++ ys) key =
      match alistLast ys key with
      | some v => some v
      | none => alistLast xs key := by
  induction xs with
  | nil =>
    simp only [List.nil_append, alistLast]
    cases alistLast ys key <;> rfl
  | cons p xs ih =>
    obtain ⟨k, v⟩ := p
    rw [List.cons_append]
    simp only [alistLast, ih]
    cases alistLast ys key <;> cases alistLast xs key <;> simp [alistLast]

theorem alistLast_append_single_hit {κ α : Type} [DecidableEq κ]
    (xs : List (κ × α)) (k : κ) (v : α) :
    alistLast (xs ++ [(k, v)]) k = some v := by
  rw [alistLast_append]
  simp [alistLast]

theorem alistLast_append_single_miss {κ α : Type} [DecidableEq κ]
    (xs : List (κ × α)) (k k2 : κ) (v : α) (h : k ≠ k2) :
    alistLast (xs ++ [(k, v)]) k2 = alistLast xs k2 := by
  rw [alistLast_append]
  simp only [alistLast, if_neg h]

theorem alistLast_cons_eq {κ α : Type} [DecidableEq κ]
    (k : κ) (v : α) (rest : List (κ × α)) (key : κ) :
    alistLast ((k, v) :: rest) key =
      match alistLast rest key with
      | some r => some r
      | none => if k = key then some v else none := rfl

theorem find_self_upper (s : String)
    (h : (HttpMethods.find? (fun item => item == s)).isSome = true) :
    toUpperCase s = s := by
  obtain ⟨a, ha⟩ := Option.isSome_iff_exists.mp h
  have hmem : a ∈ HttpMethods := List.mem_of_find?_eq_some ha
  have hbeq := List.find?_some ha
  have heq : a = s := by simpa using hbeq
  subst heq
  fin_cases hmem <;> decide

theorem parseMethod_ok_upper (x : Option String) (m : String)
    (h : parseMethod x = .ok m) : toUpperCase m = m := by
  match x with
  | none => simp [parseMethod] at h
  | some m0 =>
    simp only [parseMethod] at h
    split at h
    case isTrue hc =>
      have hm : m = toUpperCase m0 := by
        cases h
        rfl
      subst hm
      exact find_self_upper _ hc.2
    case isFalse => simp at h

theorem parseRequest_method_upper (msg : IncomingMessage) (request : HttpRequest)
    (h : parseRequest msg = .ok request) :
    toUpperCase request.method = request.method := by
  unfold parseRequest at h
  cases hm : parseMethod msg.method with
  | error t => rw [hm] at h; cases h
  | ok m =>
    rw [hm] at h
    cases h
    exact parseMethod_ok_upper msg.method m hm

theorem compile_shape (cache : CompilerCache) (schema : Schema)
    (hwf : ∀ v, alistLast cache.entries schema.id = some v → v.shape = schema.shape) :
    (compile cache schema).1.shape = schema.shape := by
  cases h : alistLast cache.entries schema.id with
  | some v =>
    simp only [compile, h]
    exact hwf v h
  | none => simp [compile, h]

theorem foldl_body_go (rest : List String) : ∀ a : String,
    rest.foldl (fun data chunk => some (data.getD "" ++ chunk)) (some a) =
      some (a ++ concatChunks rest) := by
  induction rest with
  | nil => intro a; simp [concatChunks]
  | cons c cs ih =>
    intro a
    rw [List.foldl_cons]
    show cs.foldl (fun data chunk => some (data.getD "" ++ chunk)) (some (a ++ c)) =
      some (a ++ (c ++ concatChunks cs))
    rw [ih (a ++ c), String.append_assoc]

/-! ### Sample values for the closed witnesses -/

def sampleMessage : IncomingMessage :=
  { url := some "/", method := some "GET", headers := [], chunks := [] }

def traceMessage : IncomingMessage :=
  { url := some "/", method := some "TRACE", headers := [], chunks := [] }

def sampleRequest : HttpRequest :=
  { path := "/", headers := [], method := "GET", body := none }

def sampleHandler : HttpRequest → Except Thrown HttpResponse :=
  fun _ => .ok { statusCode := 200, headers := none, body := some (.str "hello world") }

def sampleRoute : Route :=
  { matcher := .str "/", method := "GET", kind := .plain sampleHandler }

def secondRoute : Route :=
  { matcher := .str "/", method := "GET",
    kind := .plain (fun _ => .ok { statusCode := 201, headers := none, body := some (.str "second") }) }

def lowerRoute : Route :=
  { matcher := .str "/", method := "get", kind := .plain sampleHandler }

def sampleSchema : Schema :=
  { id := 0, shape := .object [("foo", .string), ("bar", .number)] }

def sampleSchemaTwin : Schema :=
  { id := 1, shape := .object [("foo", .string), ("bar", .number)] }

def sampleTypedRoute : TypedRouteT :=
  { matcher := .str "POST /", schemaBody := sampleSchema,
    handler := fun _ => .ok { status := 200, headers := none, body := some (.str "hello world") } }

def badJsonRequest : HttpRequest :=
  { path := "/", headers := [], method := "POST", body := some "nope" }

def objectResponse : HttpResponse :=
  { statusCode := 200, headers := none,
    body := some (ResponseBody.obj (Json.obj [("hello", Json.str "world")])) }

/-! ### Claim theorems -/

/-- Claim C9: request normalization reads the entire body stream and returns
the concatenation of all chunks as one string; a stream that yields no
chunks at all (and Node streams never yield zero-byte chunks, so this is
exactly the no-bytes case) gives an absent body (`none`), not the empty
string.  `readBody` in the client performs the same fold. -/
theorem parse_body_concat (chunks : List String) :
    parseBody chunks = (if chunks = [] then none else some (concatChunks chunks)) ∧
    readBody chunks = parseBody chunks := by
  refine ⟨?_, rfl⟩
  cases chunks with
  | nil => rfl
  | cons c rest =>
    simp only [parseBody, List.foldl_cons, if_neg (List.cons_ne_nil c rest)]
    show rest.foldl (fun data chunk => some (data.getD "" ++ chunk)) (some ("" ++ c)) =
      some (concatChunks (c :: rest))
    rw [foldl_body_go rest ("" ++ c)]
    simp [concatChunks]

/-- Claim C4: `parseErrorResponse` maps a structured `HttpError` (including
the `AuthError` 401, `BadInputError` 400 and `NotFoundError` 404
constructors, and any carried code) to a response whose status is the
carried code and whose body is the carried message in a JSON
`error` envelope; any other `Error` maps to status 500 with that error's
message; a thrown value that is not an `Error` maps to status 500 with the
message "internal server error". -/
theorem parse_error_response_mapping (code : Nat) (message : String)
    (body : Option Json) (value : Json) :
    parseErrorResponse (Thrown.httpError code message body) =
      { statusCode := code, headers := none,
        body := some (ResponseBody.obj (Json.obj [("error", Json.str message)])) } ∧
    parseErrorResponse (authError message) =
      { statusCode := 401, headers := none,
        body := some (ResponseBody.obj (Json.obj [("error", Json.str message)])) } ∧
    parseErrorResponse (badInputError message) =
      { statusCode := 400, headers := none,
        body := some (ResponseBody.obj (Json.obj [("error", Json.str message)])) } ∧
    parseErrorResponse (notFoundError message) =
      { statusCode := 404, headers := none,
        body := some (ResponseBody.obj (Json.obj [("error", Json.str message)])) } ∧
    parseErrorResponse (Thrown.error message) =
      { statusCode := 500, headers := none,
        body := some (ResponseBody.obj (Json.obj [("error", Json.str message)])) } ∧
    parseErrorResponse (Thrown.other value) =
      { statusCode := 500, headers := none,
        body := some (ResponseBody.obj (Json.obj [("error", Json.str "internal server error")])) } :=
  ⟨rfl, rfl, rfl, rfl, rfl, rfl⟩

/-- Claim C3: when no registered route matches the request — in particular
for a server with zero registered routes — the dispatcher returns the
default response: status 500, header `content-type: text/plain`, body
exactly "invalid route" (and the compiler cache is untouched). -/
theorem dispatch_no_match_default (cache : CompilerCache) (request : HttpRequest)
    (routes : List Route) (h : ∀ route ∈ routes, matchRoute request route = false) :
    dispatch cache request routes =
      ({ statusCode := 500,
         headers := some [("content-type", HeaderValue.str "text/plain")],
         body := some (ResponseBody.str "invalid route") }, cache) := by
  induction routes with
  | nil => rfl
  | cons r rest ih =>
    have hr : matchRoute request r = false := h r (List.mem_cons_self r rest)
    simp only [dispatch, hr, Bool.false_eq_true, if_false]
    exact ih (fun x hx => h x (List.mem_cons_of_mem r hx))

theorem dispatch_no_match_default_witness :
    dispatch emptyCache sampleRequest [] =
      ({ statusCode := 500,
         headers := some [("content-type", HeaderValue.str "text/plain")],
         body := some (ResponseBody.str "invalid route") }, emptyCache) :=
  dispatch_no_match_default emptyCache sampleRequest []
    (fun route hr => absurd hr (List.not_mem_nil route))

/-- Claim C1: the dispatcher walks the routes in registration order and
attempts only the first route whose matcher succeeds: with no match among
the routes registered before it, the outcome is exactly the attempt of that
route (whose catch boundary already covers a throwing handler or throwing
body validation), independent of every route registered after it. -/
theorem dispatch_first_match (cache : CompilerCache) (request : HttpRequest)
    (pre : List Route) (r : Route) (post : List Route)
    (hpre : ∀ x ∈ pre, matchRoute request x = false)
    (hr : matchRoute request r = true) :
    dispatch cache request (pre ++ r :: post) = attemptRoute cache request r := by
  induction pre with
  | nil => simp [dispatch, hr]
  | cons a as ih =>
    have ha : matchRoute request a = false := hpre a (List.mem_cons_self a as)
    rw [List.cons_append]
    simp only [dispatch, ha, Bool.false_eq_true, if_false]
    exact ih (fun x hx => hpre x (List.mem_cons_of_mem a hx))

theorem dispatch_first_match_witness :
    dispatch emptyCache sampleRequest [sampleRoute, secondRoute] =
      attemptRoute emptyCache sampleRequest sampleRoute :=
  dispatch_first_match emptyCache sampleRequest [] sampleRoute [secondRoute]
    (fun x hx => absurd hx (List.not_mem_nil x)) (by decide)

/-- Claim C8: the compiled-schema cache is identity-keyed and memoizing.
For every schema object, a second `compile` of the same object returns the
same cached validator instance and leaves the cache unchanged (compilation
happens at most once per object identity).  Two structurally identical but
distinct schema objects (equal `shape`, different `id`) not yet in the cache
are distinct cache keys: compiling both compiles each separately, producing
validator instances with different identities and two cache entries. -/
theorem compiler_cache_identity (cache : CompilerCache) :
    (∀ s : Schema, compile (compile cache s).2 s = compile cache s) ∧
    (∀ s s2 : Schema,
      alistLast cache.entries s.id = none →
      alistLast cache.entries s2.id = none →
      s2.id ≠ s.id → s2.shape = s.shape →
      (compile (compile cache s).2 s2).1.instanceId ≠ (compile cache s).1.instanceId ∧
      (compile (compile cache s).2 s2).2.entries.length = cache.entries.length + 2) := by
  constructor
  · intro s
    cases h : alistLast cache.entries s.id with
    | some v => simp [compile, h]
    | none =>
      simp only [compile, h]
      rw [alistLast_append_single_hit]
  · intro s s2 hs hs2 hne hshape
    have hne2 : s.id ≠ s2.id := fun he => hne he.symm
    have hlook : alistLast
        (cache.entries ++ [(s.id, ⟨cache.nextInstanceId, s.shape⟩)]) s2.id = none := by
      rw [alistLast_append_single_miss _ _ _ _ hne2]
      exact hs2
    constructor
    · simp only [compile, hs, hlook]
      exact Nat.succ_ne_self cache.nextInstanceId
    · simp only [compile, hs, hlook]
      simp [List.length_append]

theorem compiler_cache_identity_witness :
    compile (compile emptyCache sampleSchema).2 sampleSchema =
      compile emptyCache sampleSchema ∧
    (compile (compile emptyCache sampleSchema).2 sampleSchemaTwin).1.instanceId ≠
      (compile emptyCache sampleSchema).1.instanceId := by
  have h := compiler_cache_identity emptyCache
  exact ⟨h.1 sampleSchema,
    (h.2 sampleSchema sampleSchemaTwin rfl rfl (by decide) rfl).1⟩

/-- Claim C10: in the method-annotated route shape, the method sub-check is
strict string equality against the route's stored method field, and every
normalized request method is fully upper-case; hence a route registered with
a method string that is not fully upper-case (such as "get") matches no
request produced by request normalization, regardless of its path matcher. -/
theorem lowercase_method_route_unreachable (msg : IncomingMessage)
    (request : HttpRequest) (route : Route)
    (hreq : parseRequest msg = .ok request)
    (hlower : toUpperCase route.method ≠ route.method) :
    matchRoute request route = false := by
  have hup : toUpperCase request.method = request.method :=
    parseRequest_method_upper msg request hreq
  have hm : matchMethod request route = false := by
    unfold matchMethod
    by_cases h : request.method = route.method
    · exact absurd (h ▸ hup) hlower
    · simpa using h
  unfold matchRoute
  rw [hm, Bool.and_false]

theorem lowercase_method_route_unreachable_witness :
    matchRoute sampleRequest lowerRoute = false :=
  lowercase_method_route_unreachable sampleMessage sampleRequest lowerRoute rfl (by decide)

/-- Claim C7: a raw method token whose case-insensitive upper-casing is not
in the enumerated set `HttpMethods` makes request normalization throw a
request-level parse failure (`Error("Invalid method: ...")`), and this
failure surfaces out of the connection handler before any route is
considered — the result is the same thrown error whatever routes are
registered; a token whose upper-casing is in the set is normalized to that
upper-case form. -/
theorem parse_method_policy :
    (∀ m : String, m ≠ "" →
      (HttpMethods.find? (fun item => item == toUpperCase m)).isSome = true →
      parseMethod (some m) = .ok (toUpperCase m)) ∧
    (∀ (m : String) (routes : List Route) (cache : CompilerCache)
        (msg : IncomingMessage),
      msg.method = some m →
      (HttpMethods.find? (fun item => item == toUpperCase m)).isSome = false →
      handleConnection routes cache msg =
        .error (Thrown.error ("Invalid method: " ++ m))) := by
  constructor
  · intro m hne hfind
    simp [parseMethod, hne, hfind]
  · intro m routes cache msg hmsg hfind
    have hp : parseMethod (some m) =
        .error (Thrown.error ("Invalid method: " ++ m)) := by
      simp only [parseMethod]
      rw [if_neg]
      rintro ⟨-, h2⟩
      rw [hfind] at h2
      exact Bool.false_ne_true h2
    simp [handleConnection, parseRequest, hmsg, hp]

theorem parse_method_policy_witness :
    parseMethod (some "get") = .ok "GET" ∧
    handleConnection [sampleRoute] emptyCache traceMessage =
      .error (Thrown.error "Invalid method: TRACE") := by
  constructor
  · exact parse_method_policy.1 "get" (by decide) (by decide)
  · exact parse_method_policy.2 "TRACE" [sampleRoute] emptyCache traceMessage rfl (by decide)

/-- Claim C6 (amended): dispatch after successful normalization is total —
whenever `parseRequest` succeeds the listener receives exactly one
serialized response, every handler or validation failure having been caught
at the dispatcher's catch boundary inside `dispatch` — but `parseRequest`
runs *outside* that boundary, so a normalization failure propagates out of
the connection handler and the listener receives no response at all. -/
theorem handle_connection_totality (routes : List Route) (cache : CompilerCache)
    (msg : IncomingMessage) :
    (∀ request, parseRequest msg = .ok request →
      handleConnection routes cache msg =
        .ok (serializeResponse (dispatch cache request routes).1,
             (dispatch cache request routes).2)) ∧
    (∀ t, parseRequest msg = .error t →
      handleConnection routes cache msg = .error t) := by
  constructor <;> intro x hx <;> simp [handleConnection, hx]

theorem handle_connection_totality_witness :
    handleConnection [] emptyCache sampleMessage =
      .ok (serializeResponse (dispatch emptyCache sampleRequest []).1,
           (dispatch emptyCache sampleRequest []).2) :=
  (handle_connection_totality [] emptyCache sampleMessage).1 sampleRequest rfl

/-- Claim C6 counterexample: a request handed over with method token
"TRACE" escapes the connection handler as a thrown parse error — contrary
to the claim, the failure is not caught at the dispatcher's catch boundary
and the listener receives no response for this request. -/
theorem handle_connection_uncaught_parse_counterexample :
    handleConnection [sampleRoute] emptyCache traceMessage =
      .error (Thrown.error "Invalid method: TRACE") := by rfl

/-- Claim C5: for a present body, the serializer stringifies an object body
to JSON (inferring `application/json`) and coerces a string body to its
plain-text representation (inferring `text/plain`); the inferred
content-type is applied first and caller headers are merged over it, so a
caller-supplied content-type wins and the inferred one is used only when the
caller supplied none; content-length is computed last as the byte length of
the final serialized body and is what any lookup sees, overwriting any
caller-supplied content-length; for an absent body no body bytes are
written and the headers pass through unchanged. -/
theorem serialize_response_spec (response : HttpResponse) :
    (response.body = none →
      (serializeResponse response).written = none ∧
      (serializeResponse response).headers = response.headers) ∧
    (∀ b, response.body = some b →
      ∃ hs, (serializeResponse response).headers = some hs ∧
        alistLast hs "content-length" =
          some (HeaderValue.str (toString (byteLength (renderBody b)))) ∧
        (alistLast (response.headers.getD []) "content-type" = none →
          alistLast hs "content-type" = some (HeaderValue.str (inferContentType b))) ∧
        (∀ v, alistLast (response.headers.getD []) "content-type" = some v →
          alistLast hs "content-type" = some v) ∧
        (serializeResponse response).written =
          (if renderBody b = "" then none else some (renderBody b))) := by
  constructor
  · intro h
    simp [serializeResponse, h]
  · intro b hb
    refine ⟨("content-type", HeaderValue.str (inferContentType b)) ::
        (response.headers.getD [] ++
          [("content-length", HeaderValue.str (toString (byteLength (renderBody b))))]),
      ?_, ?_, ?_, ?_, ?_⟩
    · simp [serializeResponse, hb]
    · rw [alistLast_cons_eq, alistLast_append_single_hit]
    · intro hnone
      rw [alistLast_cons_eq,
        alistLast_append_single_miss _ _ _ _ (by decide : "content-length" ≠ "content-type"),
        hnone]
      simp
    · intro v hv
      rw [alistLast_cons_eq,
        alistLast_append_single_miss _ _ _ _ (by decide : "content-length" ≠ "content-type"),
        hv]
    · simp [serializeResponse, hb]

theorem serialize_response_spec_witness :
    ∃ hs, (serializeResponse objectResponse).headers = some hs ∧
      alistLast hs "content-type" = some (HeaderValue.str "application/json") ∧
      alistLast hs "content-length" = some (HeaderValue.str "17") := by
  obtain ⟨hs, hhs, hcl, hct, -, -⟩ :=
    (serialize_response_spec objectResponse).2
      (ResponseBody.obj (Json.obj [("hello", Json.str "world")])) rfl
  exact ⟨hs, hhs, hct rfl, hcl⟩

/-- Claim C2 (amended): for a typed route selected by the dispatcher, the
evaluator requires the request body to be a present string — an absent body
is rejected with `BadInputError` and the response has status 400, the
handler never running; a body whose `JSON.parse` fails raises the parser's
own `SyntaxError`, a generic `Error`, so the translated response has status
500 (not 400); a parsed body failing the route's compiled schema check is
rejected with `BadInputError("Invalid request body")` and status 400, the
handler never running; a body passing the check is wrapped in a
`TypedRequest` carrying the decoded value and passed to the typed handler.
The well-formedness hypothesis says any cached validator under this schema's
identity checks this schema's structure — guaranteed in JS, where a cache
hit under the same object identity is the same schema object. -/
theorem typed_route_evaluation (compiler : CompilerCache) (request : HttpRequest)
    (route : TypedRouteT)
    (hwf : ∀ v, alistLast compiler.entries route.schemaBody.id = some v →
      v.shape = route.schemaBody.shape) :
    (request.body = none →
      (evalTypedRoute compiler (.plain request) (.typed route)).1 =
        typedErrorResponse (badInputError "expected body to be a string") ∧
      (evalTypedRoute compiler (.plain request) (.typed route)).1.status = 400) ∧
    (∀ s msg, request.body = some s → jsonParse s = .error msg →
      (evalTypedRoute compiler (.plain request) (.typed route)).1 =
        typedErrorResponse (Thrown.error msg) ∧
      (evalTypedRoute compiler (.plain request) (.typed route)).1.status = 500) ∧
    (∀ s j, request.body = some s → jsonParse s = .ok j →
      checkShape route.schemaBody.shape j = false →
      (evalTypedRoute compiler (.plain request) (.typed route)).1 =
        typedErrorResponse (badInputError "Invalid request body") ∧
      (evalTypedRoute compiler (.plain request) (.typed route)).1.status = 400) ∧
    (∀ s j, request.body = some s → jsonParse s = .ok j →
      checkShape route.schemaBody.shape j = true →
      (evalTypedRoute compiler (.plain request) (.typed route)).1 =
        (match route.handler { path := request.path, headers := request.headers,
                               method := request.method, body := j } with
         | .ok response => response
         | .error t => typedErrorResponse t)) := by
  have hshape : (compile compiler route.schemaBody).1.shape = route.schemaBody.shape :=
    compile_shape compiler route.schemaBody hwf
  rcases hcp : compile compiler route.schemaBody with ⟨validator, compiler2⟩
  rw [hcp] at hshape
  refine ⟨?_, ?_, ?_, ?_⟩
  · intro hb
    have he : (evalTypedRoute compiler (.plain request) (.typed route)).1 =
        typedErrorResponse (badInputError "expected body to be a string") := by
      simp [evalTypedRoute, routeEvaluator, requestBodyString, hb]
    exact ⟨he, by rw [he]; rfl⟩
  · intro s msg hb hj
    have he : (evalTypedRoute compiler (.plain request) (.typed route)).1 =
        typedErrorResponse (Thrown.error msg) := by
      simp [evalTypedRoute, routeEvaluator, requestBodyString, hb, hj]
    exact ⟨he, by rw [he]; rfl⟩
  · intro s j hb hj hcheck
    have hc : validator.check j = false := by
      unfold Validator.check
      rw [hshape]
      exact hcheck
    have he : (evalTypedRoute compiler (.plain request) (.typed route)).1 =
        typedErrorResponse (badInputError "Invalid request body") := by
      simp [evalTypedRoute, routeEvaluator, requestBodyString, hb, hj, hcp, hc]
    exact ⟨he, by rw [he]; rfl⟩
  · intro s j hb hj hcheck
    have hc : validator.check j = true := by
      unfold Validator.check
      rw [hshape]
      exact hcheck
    simp only [evalTypedRoute, routeEvaluator, requestBodyString, hb, hj, hcp, hc,
      Bool.not_true, Bool.false_eq_true, if_false, mkTypedRequest]
    cases route.handler ⟨request.path, request.headers, request.method, j⟩ <;> rfl

theorem typed_route_evaluation_witness :
    (evalTypedRoute emptyCache (.plain sampleRequest) (.typed sampleTypedRoute)).1.status = 400 :=
  ((typed_route_evaluation emptyCache sampleRequest sampleTypedRoute
    (fun _ hv => Option.noConfusion hv)).1 rfl).2

/-- Claim C2 counterexample: posting the non-JSON body "nope" to a typed
route makes `JSON.parse` throw, and the translated response has status 500,
not the BadInput 400 the claim requires for a JSON parse failure. -/
theorem typed_json_parse_failure_counterexample :
    (evalTypedRoute emptyCache (.plain badJsonRequest) (.typed sampleTypedRoute)).1.status = 500 ∧
    (evalTypedRoute emptyCache (.plain badJsonRequest) (.typed sampleTypedRoute)).1.status ≠ 400 :=
  ⟨by decide, by decide⟩
